import Mathlib

/-!
Verification of the imgbot repository (src/index.ts): a chat bot that parses
an option command, applies a fixed sequence of image operations via the sharp
library, and replies with the encoded result.

The development shallowly embeds the option validators (positiveInteger,
percentage, box), the transform-pipeline sequencing of the messageCreate
handler, the success-reply option echo, and the attachment precondition.
The string-to-number coercion performed by the JavaScript Number function is
modelled exactly by jsNumber below (whitespace trimming, empty string to 0,
decimal with optional fraction and exponent, hex, octal and binary prefixes);
a finite result is an exact decimal rational num / 10 ^ e, and NaN or a
non-finite value is modelled as none, which the validators reject either way.
-/

namespace Imgbot

/-- An exact decimal rational: the value num / 10 ^ e. Every finite value
the JavaScript Number coercion can produce from a string literal has this
form; keeping it unnormalised keeps every computation on integers. -/
structure JsNum where
  num : Int
  e : Nat
deriving DecidableEq, Repr

/-- The rational value of a JsNum. -/
def JsNum.val (x : JsNum) : ℚ := (x.num : ℚ) / 10 ^ x.e

/-- Whitespace characters trimmed by the JavaScript Number coercion
(the common ones: space, tab, line feed, vertical tab, form feed,
carriage return, no-break space). -/
def isJsSpace (c : Char) : Bool :=
  c = ' ' || c = '\t' || c = '\n' || c = '\x0b' || c = '\x0c' || c = '\r' || c = '\xa0'

/-- Numeric value of a decimal digit character. -/
def digitValue (c : Char) : Nat := c.toNat - 48

/-- Consume leading decimal digits, returning the accumulated value, the
number of digits consumed, and the rest of the input. -/
def readDigitsAux : List Char → Nat → Nat → Nat × Nat × List Char
  | [], v, n => (v, n, [])
  | c :: cs, v, n =>
    if c.isDigit then readDigitsAux cs (10 * v + digitValue c) (n + 1)
    else (v, n, c :: cs)

/-- Read a maximal run of decimal digits from the front of the input. -/
def readDigits (cs : List Char) : Nat × Nat × List Char := readDigitsAux cs 0 0

/-- Value of a hexadecimal digit character, none if it is not one. -/
def hexValue (c : Char) : Option Nat :=
  if c.isDigit then some (c.toNat - 48)
  else if 'a' ≤ c && c ≤ 'f' then some (c.toNat - 87)
  else if 'A' ≤ c && c ≤ 'F' then some (c.toNat - 55)
  else none

/-- Value of an octal digit character, none if it is not one. -/
def octValue (c : Char) : Option Nat :=
  if '0' ≤ c && c ≤ '7' then some (c.toNat - 48) else none

/-- Value of a binary digit character, none if it is not one. -/
def binValue (c : Char) : Option Nat :=
  if c = '0' then some 0 else if c = '1' then some 1 else none

/-- Read a whole radix-prefixed digit string: every remaining character must
be a digit of the radix and at least one digit must be present, as in the
JavaScript Number coercion of 0x, 0o and 0b literals. -/
def readRadixAux (radix : Nat) (dv : Char → Option Nat) : List Char → Nat → Nat → Option Nat
  | [], v, n => if n = 0 then none else some v
  | c :: cs, v, n =>
    match dv c with
    | some d => readRadixAux radix dv cs (radix * v + d) (n + 1)
    | none => none

/-- Parse an exponent suffix (empty, or e or E followed by optionally signed
digits reaching the end of the input) and scale the base value by it. -/
def parseExpPart (base : JsNum) : List Char → Option JsNum
  | [] => some base
  | c :: cs =>
    if c = 'e' || c = 'E' then
      match cs with
      | '+' :: r =>
        match readDigits r with
        | (ev, en, rest) =>
          if en = 0 || rest ≠ [] then none else some ⟨base.num * 10 ^ ev, base.e⟩
      | '-' :: r =>
        match readDigits r with
        | (ev, en, rest) =>
          if en = 0 || rest ≠ [] then none else some ⟨base.num, base.e + ev⟩
      | _ =>
        match readDigits cs with
        | (ev, en, rest) =>
          if en = 0 || rest ≠ [] then none else some ⟨base.num * 10 ^ ev, base.e⟩
    else none

/-- Parse an unsigned decimal literal (digits, optional fraction, optional
exponent; the Infinity keyword is a non-finite result, none). The value of
digits ip, fraction digits fp of length fpLen is (ip * 10 ^ fpLen + fp) with
decimal exponent fpLen. -/
def parseUnsigned (cs : List Char) : Option JsNum :=
  if cs = "Infinity".data then none
  else
    match readDigits cs with
    | (ip, ipLen, rest) =>
      match rest with
      | '.' :: rest2 =>
        match readDigits rest2 with
        | (fp, fpLen, rest3) =>
          if ipLen = 0 && fpLen = 0 then none
          else parseExpPart ⟨(ip * 10 ^ fpLen + fp : Nat), fpLen⟩ rest3
      | _ => if ipLen = 0 then none else parseExpPart ⟨(ip : Int), 0⟩ rest

/-- Parse an optionally signed decimal literal. -/
def parseDecimal : List Char → Option JsNum
  | '+' :: cs => parseUnsigned cs
  | '-' :: cs => (parseUnsigned cs).map (fun x => ⟨-x.num, x.e⟩)
  | cs => parseUnsigned cs

/-- Model of the JavaScript Number coercion on the characters of a string:
trim whitespace, empty means 0, a 0x, 0o or 0b prefix selects a radix
literal, anything else is a signed decimal literal. The result none stands
for NaN or a non-finite value. -/
def jsNumberChars (s : List Char) : Option JsNum :=
  let cs := ((s.dropWhile isJsSpace).reverse.dropWhile isJsSpace).reverse
  match cs with
  | [] => some ⟨0, 0⟩
  | '0' :: x :: rest =>
    if x = 'x' || x = 'X' then (readRadixAux 16 hexValue rest 0 0).map (fun v => ⟨v, 0⟩)
    else if x = 'o' || x = 'O' then (readRadixAux 8 octValue rest 0 0).map (fun v => ⟨v, 0⟩)
    else if x = 'b' || x = 'B' then (readRadixAux 2 binValue rest 0 0).map (fun v => ⟨v, 0⟩)
    else parseDecimal cs
  | _ => parseDecimal cs

/-- JavaScript Number coercion of a string. -/
def jsNumber (s : String) : Option JsNum := jsNumberChars s.data

/-- Decide whether a JsNum is a safe integer at least 0, and extract it:
the value num / 10 ^ e is an integer exactly when 10 ^ e divides num, and
Number.isSafeInteger demands an integer of magnitude at most 2 ^ 53 - 1. -/
def safeNonNegValue (x : JsNum) : Option Nat :=
  if x.num % (10 ^ x.e : Int) = 0 then
    if 0 ≤ x.num / (10 ^ x.e : Int) ∧ x.num / (10 ^ x.e : Int) ≤ 2 ^ 53 - 1 then
      some (x.num / (10 ^ x.e : Int)).toNat
    else none
  else none

/-- Variant of the positiveInteger validator on a character list, used by
the box validator, which maps positiveInteger over the split tokens. -/
def positiveIntegerChars (cs : List Char) : Option Nat :=
  match jsNumberChars cs with
  | none => none
  | some x => safeNonNegValue x

/-- The positiveInteger validator of src/index.ts: coerce the input with
Number, reject (the mc.ParseError branch, modelled none) unless the result
is a safe integer that is not negative. -/
def positiveInteger (s : String) : Option Nat := positiveIntegerChars s.data

/-- The percentage validator of src/index.ts: positiveInteger, then reject
values above 100. -/
def percentage (s : String) : Option Nat :=
  match positiveInteger s with
  | none => none
  | some n => if n > 100 then none else some n

/-- Split on every occurrence of the single space character, as the
JavaScript split call in the box validator does. -/
def splitTokensAux : List Char → List Char → List (List Char)
  | [], acc => [acc.reverse]
  | c :: cs, acc =>
    if c = ' ' then acc.reverse :: splitTokensAux cs [] else splitTokensAux cs (c :: acc)

/-- The token list the box validator maps over: split on spaces, drop empty
tokens (the filter on nonzero length in src/index.ts). -/
def splitSpaces (s : String) : List (List Char) :=
  (splitTokensAux s.data []).filter (fun t => t.length > 0)

/-- A box of four edge offsets, in the field order of the record literal
built by the box validator of src/index.ts. -/
structure Box where
  top : Nat
  right : Nat
  bottom : Nat
  left : Nat
deriving DecidableEq, Repr

/-- Map positiveInteger over the token list, as the map call in the box
validator does; a throw from any token aborts the whole map (none). -/
def mapParse : List (List Char) → Option (List Nat)
  | [] => some []
  | t :: ts =>
    match positiveIntegerChars t, mapParse ts with
    | some n, some ns => some (n :: ns)
    | _, _ => none

/-- The box validator of src/index.ts: split the input on spaces, drop empty
tokens, parse every token with positiveInteger, and expand a list of 1, 2 or
4 values; any parse failure or other count raises, caught as a ParseError
(modelled none). -/
def box (s : String) : Option Box :=
  match mapParse (splitSpaces s) with
  | none => none
  | some [n] => some ⟨n, n, n, n⟩
  | some [v, hz] => some ⟨v, hz, v, hz⟩
  | some [t, r, b, l] => some ⟨t, r, b, l⟩
  | some _ => none

/-- An RGBA colour as produced by the Color library from a colour string
(the rgb object with red, green and blue components; components are
JavaScript numbers, modelled as exact rationals). -/
structure RGBA where
  r : ℚ
  g : ℚ
  b : ℚ
deriving DecidableEq, Repr

/-- The flip axis option: case-insensitive x or y, validated by the axis
validator of src/index.ts. -/
inductive Axis where
  | x
  | y
deriving DecidableEq, Repr

/-- The output format enum of src/index.ts (the formats array). -/
inductive Format where
  | png
  | jpg
  | jpeg
  | webp
  | gif
deriving DecidableEq, Repr

/-- The validated options record produced by the argument parse in
src/index.ts: one field per schema key, boolean flags default to false,
format defaults to png, optional value options are none when unset.
Numeric option values (threshold, rotation) are JavaScript numbers,
modelled as exact rationals. -/
structure Options where
  input : Option String := none
  format : Format := .png
  quality : Option Nat := none
  removeAlpha : Bool := false
  ensureAlpha : Bool := false
  crop : Option Box := none
  flip : Option Axis := none
  sharpen : Bool := false
  threshold : Option ℚ := none
  negative : Bool := false
  blur : Bool := false
  tint : Option RGBA := none
  greyscale : Bool := false
  width : Option Nat := none
  height : Option Nat := none
  rotation : Option ℚ := none
  extend : Option Box := none
  background : Option RGBA := none
deriving DecidableEq, Repr

/-- One sharp pipeline operation, as invoked by the messageCreate handler of
src/index.ts. The extract constructor records the arguments of the crop
call (offsets and the computed width and height, which the handler derives
from the image metadata and may in principle drive negative, hence Int);
resize records the fill fit mode string; rotate and extendWith record the
optional background colour passed along. -/
inductive Op where
  | removeAlpha
  | ensureAlpha
  | extract (left top : Nat) (width height : Int)
  | flop
  | flip
  | sharpen
  | threshold (t : ℚ)
  | negate (alpha : Bool)
  | blur
  | tint (c : RGBA)
  | greyscale
  | resize (w h : Option Nat) (fit : String)
  | rotate (degrees : ℚ) (background : Option RGBA)
  | extendWith (left top right bottom : Nat) (background : Option RGBA)
  | png
  | jpeg (quality : Option Nat)
  | webp (quality : Option Nat)
  | gif
deriving DecidableEq, Repr

/-- Alpha step of the handler: removeAlpha, else ensureAlpha, else nothing. -/
def alphaStep (args : Options) : List Op :=
  if args.removeAlpha then [.removeAlpha]
  else if args.ensureAlpha then [.ensureAlpha]
  else []

/-- Crop step of the handler: when a crop box is present, extract the region
at offset (left, top) whose width is the metadata width minus the left and
right insets and whose height is the metadata height minus the top and
bottom insets. The parameters w and h are the metadata dimensions the
handler awaits mid-pipeline. -/
def cropStep (args : Options) (w h : Int) : List Op :=
  match args.crop with
  | some bx => [.extract bx.left bx.top (w - bx.left - bx.right) (h - bx.top - bx.bottom)]
  | none => []

/-- Flip step of the handler: axis x is flop (horizontal), axis y is flip
(vertical). -/
def flipStep (args : Options) : List Op :=
  match args.flip with
  | some .x => [.flop]
  | some .y => [.flip]
  | none => []

/-- Sharpen step of the handler. -/
def sharpenStep (args : Options) : List Op :=
  if args.sharpen then [.sharpen] else []

/-- Threshold step of the handler. -/
def thresholdStep (args : Options) : List Op :=
  match args.threshold with
  | some t => [.threshold t]
  | none => []

/-- Negate step of the handler: the negate call always passes alpha false. -/
def negateStep (args : Options) : List Op :=
  if args.negative then [.negate false] else []

/-- Blur step of the handler. -/
def blurStep (args : Options) : List Op :=
  if args.blur then [.blur] else []

/-- Tint or greyscale step of the handler: a set tint option wins, greyscale
runs only in its else branch. -/
def tintStep (args : Options) : List Op :=
  match args.tint with
  | some c => [.tint c]
  | none => if args.greyscale then [.greyscale] else []

/-- Resize step of the handler: runs when width or height is set, with the
fill fit mode. -/
def resizeStep (args : Options) : List Op :=
  if args.width.isSome || args.height.isSome then [.resize args.width args.height "fill"]
  else []

/-- Rotate step of the handler, passing the background option along. -/
def rotateStep (args : Options) : List Op :=
  match args.rotation with
  | some d => [.rotate d args.background]
  | none => []

/-- Extend (pad) step of the handler, passing the box sides and the
background option along. -/
def extendStep (args : Options) : List Op :=
  match args.extend with
  | some bx => [.extendWith bx.left bx.top bx.right bx.bottom args.background]
  | none => []

/-- Encode step of the handler: switch on the format option; jpg and jpeg
are the same jpeg encoder, jpeg and webp receive the quality option. -/
def encodeStep (args : Options) : List Op :=
  match args.format with
  | .png => [.png]
  | .jpg => [.jpeg args.quality]
  | .jpeg => [.jpeg args.quality]
  | .webp => [.webp args.quality]
  | .gif => [.gif]

/-- The sequence of sharp operations the messageCreate handler applies to
the image, in source order: alpha handling, crop, flip, sharpen, threshold,
negate, blur, tint or greyscale, resize, rotate, extend, encode. The
parameters w and h are the metadata dimensions of the decoded image. -/
def buildPipeline (args : Options) (w h : Int) : List Op :=
  alphaStep args ++ (cropStep args w h ++ (flipStep args ++ (sharpenStep args ++
    (thresholdStep args ++ (negateStep args ++ (blurStep args ++ (tintStep args ++
      (resizeStep args ++ (rotateStep args ++ (extendStep args ++ encodeStep args))))))))))

/-- The pipeline stage an operation belongs to, numbering the fixed order of
the handler. -/
def stageOf : Op → Nat
  | .removeAlpha => 0
  | .ensureAlpha => 0
  | .extract _ _ _ _ => 1
  | .flop => 2
  | .flip => 2
  | .sharpen => 3
  | .threshold _ => 4
  | .negate _ => 5
  | .blur => 6
  | .tint _ => 7
  | .greyscale => 7
  | .resize _ _ _ => 8
  | .rotate _ _ => 9
  | .extendWith _ _ _ _ _ => 10
  | .png => 11
  | .jpeg _ => 11
  | .webp _ => 11
  | .gif => 11

/-- Whether the options record enables the operation of a given stage: the
condition of the corresponding if or match in the handler. The encode stage
always runs. -/
def stageEnabled (args : Options) : Nat → Bool
  | 0 => args.removeAlpha || args.ensureAlpha
  | 1 => args.crop.isSome
  | 2 => args.flip.isSome
  | 3 => args.sharpen
  | 4 => args.threshold.isSome
  | 5 => args.negative
  | 6 => args.blur
  | 7 => args.tint.isSome || args.greyscale
  | 8 => args.width.isSome || args.height.isSome
  | 9 => args.rotation.isSome
  | 10 => args.extend.isSome
  | 11 => true
  | _ => false

/-- A JavaScript value appearing in the parsed options record, for the
success-reply echo: booleans, strings, numbers, naturals, boxes, colours,
the axis enum, and undefined for an unset optional option. -/
inductive JsVal where
  | vBool (b : Bool)
  | vStr (s : String)
  | vNum (q : ℚ)
  | vNat (n : Nat)
  | vBox (b : Box)
  | vColor (c : RGBA)
  | vAxis (a : Axis)
  | undefined
deriving DecidableEq, Repr

/-- The format enum as the string stored in the options record. -/
def formatName : Format → String
  | .png => "png"
  | .jpg => "jpg"
  | .jpeg => "jpeg"
  | .webp => "webp"
  | .gif => "gif"

/-- Lift an optional option value into a JsVal, unset becoming undefined. -/
def optVal {α : Type} (f : α → JsVal) : Option α → JsVal
  | some a => f a
  | none => .undefined

/-- The entries of the parsed options record, in the key order of the
schema passed to the argument parser in src/index.ts. The parser (the
external miniclap dependency) materialises one key per schema entry, with
defaults applied and unset optional values undefined. -/
def argsEntries (args : Options) : List (String × JsVal) :=
  [("input", optVal .vStr args.input),
   ("format", .vStr (formatName args.format)),
   ("quality", optVal .vNat args.quality),
   ("removeAlpha", .vBool args.removeAlpha),
   ("ensureAlpha", .vBool args.ensureAlpha),
   ("crop", optVal .vBox args.crop),
   ("flip", optVal .vAxis args.flip),
   ("sharpen", .vBool args.sharpen),
   ("threshold", optVal .vNum args.threshold),
   ("negative", .vBool args.negative),
   ("blur", .vBool args.blur),
   ("tint", optVal .vColor args.tint),
   ("greyscale", .vBool args.greyscale),
   ("width", optVal .vNat args.width),
   ("height", optVal .vNat args.height),
   ("rotation", optVal .vNum args.rotation),
   ("extend", optVal .vBox args.extend),
   ("background", optVal .vColor args.background)]

/-- The entries shown in the success-reply text block of src/index.ts: the
options record entries with exactly those whose value is the boolean false
filtered out (the strict inequality test against false). -/
def echoEntries (args : Options) : List (String × JsVal) :=
  (argsEntries args).filter (fun en => en.2 ≠ .vBool false)

/-- The options record with every default: no input, png format, all flags
false, all optional values unset. -/
def defaultOptions : Options := {}

/-- An observable action of the messageCreate handler after a successful
parse: a text reply, the typing indicator, the network fetch of the image,
or running the transform pipeline and replying with the file. -/
inductive Action where
  | reply (text : String)
  | typing
  | fetch (url : String)
  | transformAndReply
deriving DecidableEq, Repr

/-- The fixed reply sent when no image source is available. -/
def attachErrorMsg : String := "Exactly one image must be attached."

/-- JavaScript truthiness of the optional input string: undefined and the
empty string are falsy. -/
def inputTruthy : Option String → Bool
  | none => false
  | some s => !(s == "")

/-- The image url the handler fetches: the nullish-coalescing assignment
takes the input option when it is not undefined, else the url of the lone
attachment. -/
def resolveUrl (input : Option String) (attachments : List String) : String :=
  match input with
  | some s => s
  | none => attachments.headD ""

/-- The actions the messageCreate handler takes after a successful parse,
given the input option and the attachment url list of the message: when the
input option is falsy and the message does not have exactly one attachment,
reply with the fixed message and stop; otherwise show typing, fetch the
image and run the pipeline. -/
def afterParse (input : Option String) (attachments : List String) : List Action :=
  if !inputTruthy input && attachments.length != 1 then [.reply attachErrorMsg]
  else [.typing, .fetch (resolveUrl input attachments), .transformAndReply]

theorem map_stageOf_alphaStep (args : Options) :
    (alphaStep args).map stageOf = if args.removeAlpha || args.ensureAlpha then [0] else [] := by
  cases hr : args.removeAlpha <;> cases he : args.ensureAlpha <;>
    simp [alphaStep, stageOf, hr, he]

theorem map_stageOf_cropStep (args : Options) (w h : Int) :
    (cropStep args w h).map stageOf = if args.crop.isSome then [1] else [] := by
  cases hc : args.crop <;> simp [cropStep, stageOf, hc]

theorem map_stageOf_flipStep (args : Options) :
    (flipStep args).map stageOf = if args.flip.isSome then [2] else [] := by
  cases hf : args.flip with
  | none => simp [flipStep, hf]
  | some a => cases a <;> simp [flipStep, stageOf, hf]

theorem map_stageOf_sharpenStep (args : Options) :
    (sharpenStep args).map stageOf = if args.sharpen then [3] else [] := by
  cases hs : args.sharpen <;> simp [sharpenStep, stageOf, hs]

theorem map_stageOf_thresholdStep (args : Options) :
    (thresholdStep args).map stageOf = if args.threshold.isSome then [4] else [] := by
  cases ht : args.threshold <;> simp [thresholdStep, stageOf, ht]

theorem map_stageOf_negateStep (args : Options) :
    (negateStep args).map stageOf = if args.negative then [5] else [] := by
  cases hn : args.negative <;> simp [negateStep, stageOf, hn]

theorem map_stageOf_blurStep (args : Options) :
    (blurStep args).map stageOf = if args.blur then [6] else [] := by
  cases hb : args.blur <;> simp [blurStep, stageOf, hb]

theorem map_stageOf_tintStep (args : Options) :
    (tintStep args).map stageOf = if args.tint.isSome || args.greyscale then [7] else [] := by
  cases ht : args.tint with
  | none => cases hg : args.greyscale <;> simp [tintStep, stageOf, ht, hg]
  | some c => simp [tintStep, stageOf, ht]

theorem map_stageOf_resizeStep (args : Options) :
    (resizeStep args).map stageOf =
      if args.width.isSome || args.height.isSome then [8] else [] := by
  cases hwh : args.width.isSome || args.height.isSome <;> simp [resizeStep, stageOf, hwh]

theorem map_stageOf_rotateStep (args : Options) :
    (rotateStep args).map stageOf = if args.rotation.isSome then [9] else [] := by
  cases hr : args.rotation <;> simp [rotateStep, stageOf, hr]

theorem map_stageOf_extendStep (args : Options) :
    (extendStep args).map stageOf = if args.extend.isSome then [10] else [] := by
  cases he : args.extend <;> simp [extendStep, stageOf, he]

theorem map_stageOf_encodeStep (args : Options) :
    (encodeStep args).map stageOf = [11] := by
  cases hf : args.format <;> simp [encodeStep, stageOf, hf]

theorem if_cons_append {α : Type} (b : Bool) (a : α) (l r : List α) (hh : l = r) :
    (if b then a :: l else l) = (if b then [a] else []) ++ r := by
  cases b <;> simp [hh]

theorem filter_range_twelve (p : Nat → Bool) :
    (List.range 12).filter p =
      (if p 0 then [0] else []) ++ ((if p 1 then [1] else []) ++ ((if p 2 then [2] else []) ++
        ((if p 3 then [3] else []) ++ ((if p 4 then [4] else []) ++ ((if p 5 then [5] else []) ++
          ((if p 6 then [6] else []) ++ ((if p 7 then [7] else []) ++ ((if p 8 then [8] else []) ++
            ((if p 9 then [9] else []) ++ ((if p 10 then [10] else []) ++
              (if p 11 then [11] else []))))))))))) := by
  have hr : List.range 12 = [0, 1, 2, 3, 4, 5, 6, 7, 8, 9, 10, 11] := rfl
  rw [hr]
  simp only [List.filter_cons, List.filter_nil]
  exact if_cons_append _ _ _ _ (if_cons_append _ _ _ _ (if_cons_append _ _ _ _
    (if_cons_append _ _ _ _ (if_cons_append _ _ _ _ (if_cons_append _ _ _ _
      (if_cons_append _ _ _ _ (if_cons_append _ _ _ _ (if_cons_append _ _ _ _
        (if_cons_append _ _ _ _ (if_cons_append _ _ _ _ (by cases p 11 <;> simp)))))))))))

theorem mem_alphaStep (args : Options) (op : Op) :
    op ∈ alphaStep args ↔
      (args.removeAlpha = true ∧ op = .removeAlpha) ∨
      (args.removeAlpha = false ∧ args.ensureAlpha = true ∧ op = .ensureAlpha) := by
  cases hr : args.removeAlpha <;> cases he : args.ensureAlpha <;> simp [alphaStep, hr, he]

theorem mem_cropStep (args : Options) (w h : Int) (op : Op) :
    op ∈ cropStep args w h ↔
      ∃ bx, args.crop = some bx ∧
        op = .extract bx.left bx.top (w - bx.left - bx.right) (h - bx.top - bx.bottom) := by
  cases hc : args.crop <;> simp [cropStep, hc]

theorem mem_flipStep (args : Options) (op : Op) :
    op ∈ flipStep args ↔
      (args.flip = some .x ∧ op = .flop) ∨ (args.flip = some .y ∧ op = .flip) := by
  cases hf : args.flip with
  | none => simp [flipStep, hf]
  | some a => cases a <;> simp [flipStep, hf]

theorem mem_sharpenStep (args : Options) (op : Op) :
    op ∈ sharpenStep args ↔ args.sharpen = true ∧ op = .sharpen := by
  cases hs : args.sharpen <;> simp [sharpenStep, hs]

theorem mem_thresholdStep (args : Options) (op : Op) :
    op ∈ thresholdStep args ↔ ∃ t, args.threshold = some t ∧ op = .threshold t := by
  cases ht : args.threshold <;> simp [thresholdStep, ht]

theorem mem_negateStep (args : Options) (op : Op) :
    op ∈ negateStep args ↔ args.negative = true ∧ op = .negate false := by
  cases hn : args.negative <;> simp [negateStep, hn]

theorem mem_blurStep (args : Options) (op : Op) :
    op ∈ blurStep args ↔ args.blur = true ∧ op = .blur := by
  cases hb : args.blur <;> simp [blurStep, hb]

theorem mem_tintStep (args : Options) (op : Op) :
    op ∈ tintStep args ↔
      (∃ c, args.tint = some c ∧ op = .tint c) ∨
      (args.tint = none ∧ args.greyscale = true ∧ op = .greyscale) := by
  cases ht : args.tint with
  | none => cases hg : args.greyscale <;> simp [tintStep, ht, hg]
  | some c => simp [tintStep, ht]

theorem mem_resizeStep (args : Options) (op : Op) :
    op ∈ resizeStep args ↔
      (args.width.isSome || args.height.isSome) = true ∧
        op = .resize args.width args.height "fill" := by
  cases hwh : args.width.isSome || args.height.isSome <;> simp [resizeStep, hwh]

theorem mem_rotateStep (args : Options) (op : Op) :
    op ∈ rotateStep args ↔ ∃ d, args.rotation = some d ∧ op = .rotate d args.background := by
  cases hr : args.rotation <;> simp [rotateStep, hr]

theorem mem_extendStep (args : Options) (op : Op) :
    op ∈ extendStep args ↔
      ∃ bx, args.extend = some bx ∧
        op = .extendWith bx.left bx.top bx.right bx.bottom args.background := by
  cases he : args.extend <;> simp [extendStep, he]

theorem mem_encodeStep (args : Options) (op : Op) :
    op ∈ encodeStep args ↔
      (args.format = .png ∧ op = .png) ∨
      ((args.format = .jpg ∨ args.format = .jpeg) ∧ op = .jpeg args.quality) ∨
      (args.format = .webp ∧ op = .webp args.quality) ∨
      (args.format = .gif ∧ op = .gif) := by
  cases hf : args.format <;> simp [encodeStep, hf]

theorem mem_buildPipeline (args : Options) (w h : Int) (op : Op) :
    op ∈ buildPipeline args w h ↔
      op ∈ alphaStep args ∨ op ∈ cropStep args w h ∨ op ∈ flipStep args ∨
      op ∈ sharpenStep args ∨ op ∈ thresholdStep args ∨ op ∈ negateStep args ∨
      op ∈ blurStep args ∨ op ∈ tintStep args ∨ op ∈ resizeStep args ∨
      op ∈ rotateStep args ∨ op ∈ extendStep args ∨ op ∈ encodeStep args := by
  simp [buildPipeline, List.mem_append]

/-- C1: for every validated options record and metadata dimensions, the
stages of the operations the pipeline applies are exactly the enabled
stages of the fixed order 0 to 11 (alpha handling, crop, flip, sharpen,
threshold, negate, blur, tint or greyscale, resize, rotate, pad or extend,
encode), listed in increasing stage order; a stage whose option is unset
contributes no operation and the others keep their relative order. -/
theorem pipeline_fixed_order (args : Options) (w h : Int) :
    (buildPipeline args w h).map stageOf = (List.range 12).filter (stageEnabled args) := by
  rw [filter_range_twelve]
  simp only [buildPipeline, List.map_append]
  rw [map_stageOf_alphaStep, map_stageOf_cropStep, map_stageOf_flipStep,
    map_stageOf_sharpenStep, map_stageOf_thresholdStep, map_stageOf_negateStep,
    map_stageOf_blurStep, map_stageOf_tintStep, map_stageOf_resizeStep,
    map_stageOf_rotateStep, map_stageOf_extendStep, map_stageOf_encodeStep]
  rfl

/-- C2: whenever the box input splits and parses into exactly 1, 2 or 4
non-negative integers, the validator succeeds and expands them as stated:
one value fills all four sides, two values are the vertical then horizontal
pair, four values are top, right, bottom, left. -/
theorem box_expansion (s : String) (sides : List Nat)
    (hp : mapParse (splitSpaces s) = some sides) :
    (∀ n, sides = [n] → box s = some ⟨n, n, n, n⟩) ∧
    (∀ v hz, sides = [v, hz] → box s = some ⟨v, hz, v, hz⟩) ∧
    (∀ t r b l, sides = [t, r, b, l] → box s = some ⟨t, r, b, l⟩) := by
  refine ⟨?_, ?_, ?_⟩
  · intro n hn
    subst hn
    simp [box, hp]
  · intro v hz hvh
    subst hvh
    simp [box, hp]
  · intro t r b l htr
    subst htr
    simp [box, hp]

/-- C2 witness: concrete box strings of one, two and four integers expand
as the claim states. -/
theorem box_expansion_witness :
    box "5" = some ⟨5, 5, 5, 5⟩ ∧ box "3 4" = some ⟨3, 4, 3, 4⟩ ∧
      box "1 2 3 4" = some ⟨1, 2, 3, 4⟩ :=
  ⟨(box_expansion "5" [5] (by decide)).1 5 rfl,
   (box_expansion "3 4" [3, 4] (by decide)).2.1 3 4 rfl,
   (box_expansion "1 2 3 4" [1, 2, 3, 4] (by decide)).2.2 1 2 3 4 rfl⟩

/-- C3 counterexample: the box validator rejects two semicolon-separated
integers and two tab-separated integers, although the claim says strings of
1, 2 or 4 whitespace- or semicolon-separated integers are accepted; only
the single space separates (accepted in the third conjunct). -/
theorem box_separator_counterexample :
    box "1;2" = none ∧ box "1\t2" = none ∧ box "1 2" = some ⟨1, 2, 1, 2⟩ := by
  decide

/-- C3 amended: the box validator accepts exactly the strings whose
space-separated tokens all parse as safe non-negative integers and number
1, 2 or 4; every other integer count, and any other separator (semicolon,
tab), is a validation failure. -/
theorem box_accepts_iff_count (s : String) :
    (box s).isSome = true ↔
      ∃ sides, mapParse (splitSpaces s) = some sides ∧
        (sides.length = 1 ∨ sides.length = 2 ∨ sides.length = 4) := by
  cases hm : mapParse (splitSpaces s) with
  | none => simp [box, hm]
  | some sides =>
    rcases sides with _ | ⟨a, _ | ⟨b, _ | ⟨c, _ | ⟨d, _ | t⟩⟩⟩⟩ <;> simp [box, hm]

/-- C4: when a crop box is supplied, the pipeline contains the extract
operation at offset (left, top) with width equal to the metadata width
minus the left and right insets and height equal to the metadata height
minus the top and bottom insets, and every extract operation in the
pipeline has exactly these arguments. -/
theorem crop_uses_metadata (args : Options) (w h : Int) (bx : Box)
    (hc : args.crop = some bx) :
    Op.extract bx.left bx.top (w - bx.left - bx.right) (h - bx.top - bx.bottom) ∈
        buildPipeline args w h ∧
      ∀ l t ew eh, Op.extract l t ew eh ∈ buildPipeline args w h →
        l = bx.left ∧ t = bx.top ∧ ew = w - bx.left - bx.right ∧
          eh = h - bx.top - bx.bottom := by
  constructor
  · rw [mem_buildPipeline]
    refine Or.inr (Or.inl ?_)
    rw [mem_cropStep]
    exact ⟨bx, hc, rfl⟩
  · intro l t ew eh hmem
    rw [mem_buildPipeline] at hmem
    simp only [mem_alphaStep, mem_cropStep, mem_flipStep, mem_sharpenStep, mem_thresholdStep,
      mem_negateStep, mem_blurStep, mem_tintStep, mem_resizeStep, mem_rotateStep,
      mem_extendStep, mem_encodeStep, hc] at hmem
    simp at hmem
    obtain ⟨h1, h2, h3, h4⟩ := hmem
    exact ⟨h1, h2, h3, h4⟩

/-- C4 witness: crop box with left 10, top 5, right 10, bottom 5 on a
100 by 100 image extracts width 80, height 90 at offset (10, 5). -/
theorem crop_uses_metadata_witness :
    Op.extract 10 5 80 90 ∈ buildPipeline { crop := some ⟨5, 10, 5, 10⟩ } 100 100 :=
  (crop_uses_metadata { crop := some ⟨5, 10, 5, 10⟩ } 100 100 ⟨5, 10, 5, 10⟩ rfl).1

/-- C5: a set tint option always wins: the pipeline then applies the tint
operation and never the greyscale operation; the greyscale operation is
applied exactly when tint is unset and the greyscale flag is set. -/
theorem tint_wins_over_greyscale (args : Options) (w h : Int) (c : RGBA) :
    (args.tint = some c → Op.tint c ∈ buildPipeline args w h ∧
      Op.greyscale ∉ buildPipeline args w h) ∧
    (Op.greyscale ∈ buildPipeline args w h ↔ args.tint = none ∧ args.greyscale = true) := by
  have hg : Op.greyscale ∈ buildPipeline args w h ↔
      args.tint = none ∧ args.greyscale = true := by
    rw [mem_buildPipeline]
    simp [mem_alphaStep, mem_cropStep, mem_flipStep, mem_sharpenStep, mem_thresholdStep,
      mem_negateStep, mem_blurStep, mem_tintStep, mem_resizeStep, mem_rotateStep,
      mem_extendStep, mem_encodeStep]
  refine ⟨fun ht => ⟨?_, ?_⟩, hg⟩
  · rw [mem_buildPipeline]
    refine Or.inr (Or.inr (Or.inr (Or.inr (Or.inr (Or.inr (Or.inr (Or.inl ?_)))))))
    rw [mem_tintStep]
    exact Or.inl ⟨c, ht, rfl⟩
  · rw [hg]
    rintro ⟨hnone, _⟩
    rw [ht] at hnone
    exact Option.noConfusion hnone

/-- C5 witness: with both tint and greyscale set, the pipeline applies the
tint operation and not the greyscale operation. -/
theorem tint_wins_over_greyscale_witness :
    Op.tint ⟨255, 0, 0⟩ ∈
        buildPipeline { tint := some ⟨255, 0, 0⟩, greyscale := true } 1 1 ∧
      Op.greyscale ∉ buildPipeline { tint := some ⟨255, 0, 0⟩, greyscale := true } 1 1 :=
  (tint_wins_over_greyscale { tint := some ⟨255, 0, 0⟩, greyscale := true } 1 1
    ⟨255, 0, 0⟩).1 rfl

/-- C8: a set remove-alpha flag always wins: the pipeline then applies the
remove-alpha operation and never the ensure-alpha operation; ensure-alpha
is applied exactly when remove-alpha is unset and ensure-alpha is set. -/
theorem removeAlpha_wins_over_ensureAlpha (args : Options) (w h : Int) :
    (args.removeAlpha = true → Op.removeAlpha ∈ buildPipeline args w h ∧
      Op.ensureAlpha ∉ buildPipeline args w h) ∧
    (Op.ensureAlpha ∈ buildPipeline args w h ↔
      args.removeAlpha = false ∧ args.ensureAlpha = true) := by
  have he : Op.ensureAlpha ∈ buildPipeline args w h ↔
      args.removeAlpha = false ∧ args.ensureAlpha = true := by
    rw [mem_buildPipeline]
    simp [mem_alphaStep, mem_cropStep, mem_flipStep, mem_sharpenStep, mem_thresholdStep,
      mem_negateStep, mem_blurStep, mem_tintStep, mem_resizeStep, mem_rotateStep,
      mem_extendStep, mem_encodeStep]
  refine ⟨fun hr => ⟨?_, ?_⟩, he⟩
  · rw [mem_buildPipeline]
    refine Or.inl ?_
    rw [mem_alphaStep]
    exact Or.inl ⟨hr, rfl⟩
  · rw [he]
    rintro ⟨hfalse, _⟩
    rw [hr] at hfalse
    exact Bool.noConfusion hfalse

/-- C8 witness: with both alpha flags set, the pipeline applies the
remove-alpha operation and not the ensure-alpha operation. -/
theorem removeAlpha_wins_witness :
    Op.removeAlpha ∈ buildPipeline { removeAlpha := true, ensureAlpha := true } 1 1 ∧
      Op.ensureAlpha ∉ buildPipeline { removeAlpha := true, ensureAlpha := true } 1 1 :=
  (removeAlpha_wins_over_ensureAlpha { removeAlpha := true, ensureAlpha := true } 1 1).1 rfl

/-- C9: a negate operation is in the pipeline exactly when the negative
flag is set and its alpha argument is false, so the alpha channel is never
inverted. -/
theorem negate_excludes_alpha (args : Options) (w h : Int) (b : Bool) :
    Op.negate b ∈ buildPipeline args w h ↔ args.negative = true ∧ b = false := by
  rw [mem_buildPipeline]
  simp [mem_alphaStep, mem_cropStep, mem_flipStep, mem_sharpenStep, mem_thresholdStep,
    mem_negateStep, mem_blurStep, mem_tintStep, mem_resizeStep, mem_rotateStep,
    mem_extendStep, mem_encodeStep]

/-- C6 counterexample: on an all-default options record the echo of the
success reply still lists the format option, although format sits at its
default value png; options at non-false defaults are not omitted. -/
theorem echo_includes_default_format :
    ("format", JsVal.vStr "png") ∈ echoEntries defaultOptions := by
  decide

/-- C6 amended: the success-reply text block lists exactly the options
record entries whose value is not the boolean false; every false-valued
flag is omitted, and every other value, including non-false defaults such
as the format option, appears (the format entry is always echoed). -/
theorem echo_filters_exactly_false (args : Options) (k : String) (v : JsVal) :
    ((k, v) ∈ echoEntries args ↔ (k, v) ∈ argsEntries args ∧ v ≠ .vBool false) ∧
      ("format", JsVal.vStr (formatName args.format)) ∈ echoEntries args := by
  constructor
  · constructor
    · intro hmem
      exact ⟨(List.mem_filter.mp hmem).1, by simpa using (List.mem_filter.mp hmem).2⟩
    · rintro ⟨h1, h2⟩
      exact List.mem_filter.mpr ⟨h1, by simpa using h2⟩
  · refine List.mem_filter.mpr ⟨?_, by simp⟩
    simp [argsEntries]

/-- C7: when the parsed command has no image-source argument and the
message does not carry exactly one attachment, the handler replies with the
fixed attachment message and performs no fetch and no transformation. -/
theorem no_source_requires_single_attachment (input : Option String) (atts : List String)
    (h1 : input = none) (h2 : atts.length ≠ 1) :
    afterParse input atts = [Action.reply attachErrorMsg] ∧
      (∀ u, Action.fetch u ∉ afterParse input atts) ∧
      Action.transformAndReply ∉ afterParse input atts := by
  subst h1
  have hc : (!inputTruthy none && atts.length != 1) = true := by
    simp [inputTruthy, bne_iff_ne, h2]
  refine ⟨?_, ?_, ?_⟩
  · simp [afterParse, hc]
  · intro u
    simp [afterParse, hc]
  · simp [afterParse, hc]

/-- C7 witness: a message with no input option and no attachment gets
exactly the fixed reply. -/
theorem no_source_requires_single_attachment_witness :
    afterParse none [] = [Action.reply attachErrorMsg] :=
  (no_source_requires_single_attachment none [] rfl (by decide)).1

/-- C10: the integer validator accepts the empty string and whitespace-only
strings as 0, accepts exponent notation and hex notation (1e2 as 100, 0x10
as 16), the percentage validator inherits this, and in general every string
whose Number coercion is a safe integer value at least 0 is accepted with
that value, rather than only plain decimal digit strings. -/
theorem positiveInteger_accepts_js_coercions :
    positiveInteger "" = some 0 ∧
    positiveInteger " \t\n" = some 0 ∧
    positiveInteger "1e2" = some 100 ∧
    positiveInteger "0x10" = some 16 ∧
    percentage "" = some 0 ∧
    percentage "1e2" = some 100 ∧
    (∀ (s : String) (x : JsNum) (n : Nat), jsNumber s = some x → x.val = (n : ℚ) →
      n ≤ 2 ^ 53 - 1 → positiveInteger s = some n) := by
  refine ⟨by decide, by decide, by decide, by decide, by decide, by decide, ?_⟩
  intro s x n hjs hval hle
  have h10 : ((10 : ℚ) ^ x.e) ≠ 0 := pow_ne_zero _ (by norm_num)
  rw [JsNum.val, div_eq_iff h10] at hval
  have hx : x.num = (n : Int) * 10 ^ x.e := by exact_mod_cast hval
  have hjs2 : jsNumberChars s.data = some x := hjs
  have hmod : ((n : Int) * 10 ^ x.e) % 10 ^ x.e = 0 := Int.mul_emod_left _ _
  have hdiv : ((n : Int) * 10 ^ x.e) / 10 ^ x.e = n :=
    Int.mul_ediv_cancel _ (by positivity)
  have hle2 : ((n : Int) * 10 ^ x.e) / 10 ^ x.e ≤ 2 ^ 53 - 1 := by
    rw [hdiv]
    have hcast : ((2 ^ 53 - 1 : Nat) : Int) = 2 ^ 53 - 1 := by norm_num
    rw [← hcast]
    exact_mod_cast hle
  have hpos : 0 ≤ ((n : Int) * 10 ^ x.e) / 10 ^ x.e := by
    rw [hdiv]
    positivity
  simp only [positiveInteger, positiveIntegerChars, hjs2]
  simp only [safeNonNegValue, hx]
  rw [if_pos hmod, if_pos ⟨hpos, hle2⟩, hdiv]
  simp

/-- C10 witness: the general coercion statement applied at the concrete
exponent-notation string. -/
theorem positiveInteger_accepts_js_coercions_witness :
    positiveInteger "1e2" = some 100 :=
  positiveInteger_accepts_js_coercions.2.2.2.2.2.2 "1e2" ⟨100, 0⟩ 100 (by decide)
    (by simp [JsNum.val]) (by decide)

end Imgbot
